import Mathlib

/-!
Verification of the xrdfit spectrum-fitting engine's specification.

The repository ships only a tutorial notebook driving the engine
(`FitExperiment`, `FitSpectrum`, `PeakParams`, `run_analysis`, ...); the
engine itself (`xrdfit/spectrum_fitting.py`) is not part of the sources
available here.  The definitions below therefore model the engine from the
specification: the data model (PeakWindowSpec, PeakShapeParameters,
FitResult, FrameFitRecord, ExperimentTimeSeries), the per-window fitter
(SingleSpectrumFitter), the frame orchestrator (FrameSequenceOrchestrator,
`run_analysis`), the time-series aggregation and the fit-diagnostics
report.  The numerical collaborators that the spec itself treats as
external or numeric (the spectrum loader, the initial-parameter estimator
and the bounded least-squares optimizer) are passed in as explicit function
arguments, so every theorem quantifies over their behaviour.
-/

/-- Modelled from the spec: a Spectrum is an ordered sequence of
(angle, intensity) samples for one frame. -/
abbrev Spectrum := List (ℚ × ℚ)

/-- Modelled from the spec: a PeakWindowSpec describes one angular
sub-range `[lo, hi]`, the ordered peak labels inside it, and optional
per-peak bound hints. -/
structure PeakWindowSpec where
  lo : ℚ
  hi : ℚ
  peakLabels : List String
  boundHints : Option (List (ℚ × ℚ)) := none
deriving DecidableEq

/-- Modelled from the spec: PeakShapeParameters is a named parameter set
(center/height/width/baseline entries, by name) whose entries carry an
estimated standard error that may be absent, together with the peak labels
the parameter set was built for. -/
structure PeakShapeParameters where
  peakLabels : List String
  values : List (String × ℚ × Option ℚ)
deriving DecidableEq

/-- Modelled from the spec: FitResult is one fit outcome for one window at
one frame: success flag, fitted parameters, number of optimizer function
evaluations, residual metric, and the window spec it refers to. -/
structure FitResult where
  success : Bool
  params : PeakShapeParameters
  nEvaluations : Nat
  residual : ℚ
  window : PeakWindowSpec
deriving DecidableEq

/-- Modelled from the spec: a FrameFitRecord is the full set of FitResults
for one frame. -/
structure FrameRecord where
  frameIndex : Int
  results : List FitResult
deriving DecidableEq

/-- Modelled from the spec: the outcome the external bounded nonlinear
least-squares optimizer reports for one window: fitted parameter values by
name, curvature-derived standard errors by name, the number of function
evaluations used, the residual, whether the curvature (Jacobian-derived
covariance) matrix was singular, and whether the fit moved meaningfully
from its initial guess. -/
structure OptOutcome where
  values : List (String × ℚ)
  paramErrors : List (String × ℚ)
  nEvals : Nat
  residual : ℚ
  curvatureSingular : Bool
  movedFromInitial : Bool
deriving DecidableEq

/-- The external per-frame spectrum source `load_spectrum`. -/
abbrev Loader := Int → Except String Spectrum

/-- The `initial_guess` operation of PeakShapeModel (numeric estimation,
treated as an explicit collaborator). -/
abbrev Guesser := Spectrum → PeakWindowSpec → PeakShapeParameters

/-- The bounded nonlinear least-squares minimizer; a numerical evaluation
error is reported as `.error`. -/
abbrev Optimizer := Spectrum → PeakWindowSpec → PeakShapeParameters → Except String OptOutcome

/-- Modelled from the spec: configuration-time error kinds of
`ParameterSpecMismatch`. -/
inductive ConfigError where
  | hintCountMismatch : ConfigError
  | duplicateLabel : ConfigError
deriving DecidableEq

/-- Modelled from the spec: the errors that halt a run: configuration
errors (`ParameterSpecMismatch`) and spectrum-load errors. -/
inductive RunError where
  | paramSpecMismatch : ConfigError → RunError
  | spectrumLoadError : String → RunError
deriving DecidableEq

/-- Modelled from the spec: orchestrator configuration - frame rate (Hz),
the explicit frame-index sequence, the window specs, `reuse_fits`
(default false) and `evaluation_threshold` (default 500). -/
structure Config where
  frameRate : ℚ
  framesToFit : List Int
  peakParams : List PeakWindowSpec
  reuseFits : Bool := false
  evaluationThreshold : Nat := 500
deriving DecidableEq

/-- Whether a window's bound-hint count is consistent with its labels. -/
def hintOk (w : PeakWindowSpec) : Bool :=
  match w.boundHints with
  | none => true
  | some hs => decide (hs.length = w.peakLabels.length)

/-- Modelled from the spec: configuration-time validation - the number of
bound hints, if given, must equal the number of peak labels in each
window, and peak labels must be unique across the whole experiment. -/
def validateSpecs (ws : List PeakWindowSpec) : Except ConfigError Unit :=
  if ws.all hintOk then
    if ((ws.map (fun w => w.peakLabels)).flatten).Nodup then .ok ()
    else .error .duplicateLabel
  else .error .hintCountMismatch

/-- Whether two peak-label lists denote the same label set. -/
def labelSetMatches (xs ys : List String) : Bool :=
  xs.all (fun x => ys.contains x) && ys.all (fun y => xs.contains y)

/-- Modelled from the spec: the initial parameter vector for one window
fit - the warm start is used directly when its peak-label set matches the
window's labels; otherwise `initial_guess` is called. -/
def chooseInit (ig : Guesser) (s : Spectrum) (w : PeakWindowSpec)
    (warm : Option PeakShapeParameters) : PeakShapeParameters :=
  match warm with
  | some p => if labelSetMatches p.peakLabels w.peakLabels then p else ig s w
  | none => ig s w

/-- Look up a parameter's curvature-derived standard error by name. -/
def lookupErr (n : String) (l : List (String × ℚ)) : Option ℚ :=
  (l.find? (fun e => e.1 == n)).map (fun e => e.2)

/-- Modelled from the spec: run the optimizer on one window from a given
initial parameter vector.  A numerical evaluation error is caught and the
FitResult is marked failed; after convergence, parameter standard errors
are marked absent when the curvature matrix is singular or the fit did not
move meaningfully from its initial guess, without failing the fit. -/
def fitCore (opt : Optimizer) (s : Spectrum) (w : PeakWindowSpec)
    (init : PeakShapeParameters) : FitResult :=
  match opt s w init with
  | .error _ =>
      { success := false
        params := { peakLabels := w.peakLabels, values := [] }
        nEvaluations := 0
        residual := 0
        window := w }
  | .ok o =>
      let errAbsent := o.curvatureSingular || !o.movedFromInitial
      { success := true
        params := { peakLabels := w.peakLabels
                    values := o.values.map (fun nv =>
                      (nv.1, nv.2, if errAbsent then none else lookupErr nv.1 o.paramErrors)) }
        nEvaluations := o.nEvals
        residual := o.residual
        window := w }

/-- Modelled from the spec: SingleSpectrumFitter's per-window contract -
choose the initial parameters (warm start or `initial_guess`) and run the
bounded minimization. -/
def fitWindow (ig : Guesser) (opt : Optimizer) (s : Spectrum)
    (w : PeakWindowSpec) (warm : Option PeakShapeParameters) : FitResult :=
  fitCore opt s w (chooseInit ig s w warm)

/-- Modelled from the spec: the warm start passed for one window - the
previous fit's parameters exactly when `reuse_fits` is true and that
previous fit succeeded. -/
def warmStart (reuse : Bool) (prev : Option FitResult) : Option PeakShapeParameters :=
  if reuse then
    match prev with
    | some r => if r.success then some r.params else none
    | none => none
  else none

/-- Modelled from the spec: fit every window of one frame's spectrum,
seeding each window from that window's previous result. -/
def fitFrame (ig : Guesser) (opt : Optimizer) (ws : List PeakWindowSpec)
    (reuse : Bool) (prev : List (Option FitResult)) (s : Spectrum) : List FitResult :=
  (ws.zip prev).map (fun wp => fitWindow ig opt s wp.1 (warmStart reuse wp.2))

/-- Modelled from the spec: process the frame-index sequence strictly in
the given order: load each spectrum (a load error aborts the run), fit
every window seeded from the immediately previously processed frame's
results, and collect FrameFitRecords in processing order. -/
def runFrames (load : Loader) (ig : Guesser) (opt : Optimizer)
    (ws : List PeakWindowSpec) (reuse : Bool)
    (prev : List (Option FitResult)) : List Int → Except String (List FrameRecord)
  | [] => .ok []
  | i :: rest =>
    match load i with
    | .error e => .error e
    | .ok s =>
      let results := fitFrame ig opt ws reuse prev s
      match runFrames load ig opt ws reuse (results.map (fun r => some r)) rest with
      | .error e => .error e
      | .ok recs => .ok ({ frameIndex := i, results := results } :: recs)

/-- The peak-group label of a window: the concatenation of its peak
labels. -/
def groupLabel (w : PeakWindowSpec) : String :=
  String.intercalate " " w.peakLabels

/-- Modelled from the spec: one entry of the ExperimentTimeSeries - keyed
by (peak-group label, parameter name), carrying the frame index it came
from, the time (frame index / frame rate), the fitted value and the
error-or-absent. -/
structure SeriesEntry where
  label : String
  paramName : String
  frameIndex : Int
  time : ℚ
  value : ℚ
  err : Option ℚ
deriving DecidableEq

/-- The time-series entries contributed by one frame's record: one entry
per fitted parameter of each successful window fit, with
time = frame index / frame rate. -/
def entriesOfRecord (rate : ℚ) (rec : FrameRecord) : List SeriesEntry :=
  rec.results.flatMap (fun r =>
    if r.success then
      r.params.values.map (fun v =>
        { label := groupLabel r.window
          paramName := v.1
          frameIndex := rec.frameIndex
          time := (rec.frameIndex : ℚ) / rate
          value := v.2.1
          err := v.2.2 })
    else [])

/-- Modelled from the spec: the ExperimentTimeSeries built incrementally,
append-only, as the records are produced in processing order. -/
def aggregate (rate : ℚ) (recs : List FrameRecord) : List SeriesEntry :=
  recs.flatMap (entriesOfRecord rate)

/-- Modelled from the spec: one diagnostics entry - a fit whose evaluation
count exceeded the evaluation threshold, remembered with its peak-group
label, frame index and evaluation count. -/
structure SlowFit where
  label : String
  frameIndex : Int
  nEvals : Nat
deriving DecidableEq

/-- Modelled from the spec: the FitDiagnosticsReport data - every
(window, frame) fit whose evaluation count exceeded the threshold. -/
def slowFitsOf (threshold : Nat) (recs : List FrameRecord) : List SlowFit :=
  recs.flatMap (fun rec =>
    rec.results.filterMap (fun r =>
      if threshold < r.nEvaluations then
        some { label := groupLabel r.window
               frameIndex := rec.frameIndex
               nEvals := r.nEvaluations }
      else none))

/-- The distinct peak-group labels of a diagnostics report, ascending. -/
def sortedLabels (S : List SlowFit) : List String :=
  List.insertionSort (fun a b => a ≤ b) (S.map (fun e => e.label)).dedup

/-- Modelled from the spec: `summary()` - the peak-group labels with at
least one slow fit, with their counts, ascending by label. -/
def summary (S : List SlowFit) : List (String × Nat) :=
  (sortedLabels S).map (fun l => (l, S.countP (fun e => e.label == l)))

/-- Modelled from the spec: `detailed()` - additionally lists, per slow
fit, the frame index and the evaluation count. -/
def detailed (S : List SlowFit) : List (String × Nat × List (Int × Nat)) :=
  (sortedLabels S).map (fun l =>
    (l, S.countP (fun e => e.label == l),
      (S.filter (fun e => e.label == l)).map (fun e => (e.frameIndex, e.nEvals))))

/-- The complete output of one analysis run: the per-frame records in
processing order, the ExperimentTimeSeries and the diagnostics data. -/
structure RunOutput where
  records : List FrameRecord
  series : List SeriesEntry
  slow : List SlowFit
deriving DecidableEq

/-- Modelled from the spec: `run_analysis` - validate the configuration
first (a ParameterSpecMismatch halts before any frame is loaded), then
process the frame-index sequence in order and build the time series and
the diagnostics report. -/
def run_analysis (load : Loader) (ig : Guesser) (opt : Optimizer)
    (cfg : Config) : Except RunError RunOutput :=
  match validateSpecs cfg.peakParams with
  | .error e => .error (.paramSpecMismatch e)
  | .ok _ =>
    match runFrames load ig opt cfg.peakParams cfg.reuseFits
        (List.replicate cfg.peakParams.length none) cfg.framesToFit with
    | .error e => .error (.spectrumLoadError e)
    | .ok recs =>
        .ok { records := recs
              series := aggregate cfg.frameRate recs
              slow := slowFitsOf cfg.evaluationThreshold recs }

/-- Errors of the time-series query interface. -/
inductive SeriesError where
  | notFound : SeriesError
deriving DecidableEq

/-- Modelled from the spec: `get_series(peak_group_label, parameter_name)`
returns the ordered (time, value, error-or-absent) tuples for that key and
fails with a NotFound kind when the label or parameter was never
fitted. -/
def get_series (ts : List SeriesEntry) (label pname : String) :
    Except SeriesError (List (ℚ × ℚ × Option ℚ)) :=
  if (ts.filter (fun e => e.label == label && e.paramName == pname)).isEmpty then
    .error .notFound
  else
    .ok ((ts.filter (fun e => e.label == label && e.paramName == pname)).map
      (fun e => (e.time, e.value, e.err)))

/-- Extract the RunOutput of a successful run (empty output on error). -/
def outOf (r : Except RunError RunOutput) : RunOutput :=
  match r with
  | .ok o => o
  | .error _ => { records := [], series := [], slow := [] }

/-- A simple singlet window used in the concrete examples. -/
def wA : PeakWindowSpec := { lo := 0, hi := 10, peakLabels := ["(A)"] }

/-- A mis-specified window: 2 peak labels but 3 bound hints. -/
def wBad : PeakWindowSpec :=
  { lo := 0, hi := 1, peakLabels := ["(a)", "(b)"]
    boundHints := some [(0, 0), (0, 0), (0, 0)] }

/-- A loader that always provides a small two-sample spectrum. -/
def cload : Loader := fun _ => .ok [(0, 0), (1, 1)]

/-- A concrete initial-guess function: one center entry per label. -/
def cig : Guesser := fun _ w =>
  { peakLabels := w.peakLabels
    values := w.peakLabels.map (fun l => (l ++ "_center", 1, none)) }

/-- A concrete optimizer: echoes the initial vector shifted by one and
reports 600 function evaluations. -/
def copt : Optimizer := fun _ _ init =>
  .ok { values := init.values.map (fun v => (v.1, v.2.1 + 1))
        paramErrors := [("(A)_center", 1)]
        nEvals := 600
        residual := 0
        curvatureSingular := false
        movedFromInitial := true }

/-- An optimizer that always raises a numerical evaluation error. -/
def coptFail : Optimizer := fun _ _ _ => .error "overflow"

/-- Configuration with the non-monotonic frame sequence [5, 1, 3]. -/
def ccfgOrder : Config :=
  { frameRate := 10, framesToFit := [5, 1, 3], peakParams := [wA], reuseFits := true }

/-- Configuration with the non-monotonic frame sequence [5, 1]. -/
def c8cfg : Config := { frameRate := 10, framesToFit := [5, 1], peakParams := [wA] }

/-- Configuration that fits the same frame twice with reuse disabled. -/
def cRepeat : Config := { frameRate := 10, framesToFit := [1, 1], peakParams := [wA] }

/-- Configuration with the mis-specified window. -/
def cfgBad : Config := { frameRate := 10, framesToFit := [1], peakParams := [wBad] }

/-- Configuration with one frame and the simple window. -/
def cfgOne : Config := { frameRate := 10, framesToFit := [1], peakParams := [wA] }

/-- Configuration with two increasing frames and the simple window. -/
def cfgTwo : Config := { frameRate := 10, framesToFit := [1, 2], peakParams := [wA] }

/-- The output of the concrete [5, 1, 3] run. -/
def coutOrder : RunOutput := outOf (run_analysis cload cig copt ccfgOrder)

/-- The output of the concrete [5, 1] run. -/
def c8out : RunOutput := outOf (run_analysis cload cig copt c8cfg)

/-- The output of the concrete [1, 1] run with reuse disabled. -/
def coutRepeat : RunOutput := outOf (run_analysis cload cig copt cRepeat)

/-- The output of the concrete run whose optimizer always fails. -/
def coutFail : RunOutput := outOf (run_analysis cload cig coptFail cfgOne)

/-- The output of the concrete one-frame run. -/
def coutOne : RunOutput := outOf (run_analysis cload cig copt cfgOne)

/-- The output of the concrete [1, 2] run. -/
def coutTwo : RunOutput := outOf (run_analysis cload cig copt cfgTwo)

/-- Some window's bound-hint count disagrees with its peak-label count. -/
def BadHints (ws : List PeakWindowSpec) : Prop :=
  ∃ w ∈ ws, ∃ hs, w.boundHints = some hs ∧ hs.length ≠ w.peakLabels.length

/-- A peak label occurs in more than one place across the experiment. -/
def DupLabels (ws : List PeakWindowSpec) : Prop :=
  ¬ ((ws.map (fun w => w.peakLabels)).flatten).Nodup

/-- The per-window warm-start state produced after k processing steps:
the fit results of the immediately previously processed frame (the
initial state for k = 0). -/
def chainPrev (prev : List (Option FitResult)) (recs : List FrameRecord) :
    Nat → List (Option FitResult)
  | 0 => prev
  | k + 1 =>
    match recs[k]? with
    | some rec => rec.results.map (fun r => some r)
    | none => prev

theorem run_analysis_ok {load : Loader} {ig : Guesser} {opt : Optimizer}
    {cfg : Config} {out : RunOutput}
    (h : run_analysis load ig opt cfg = .ok out) :
    validateSpecs cfg.peakParams = .ok () ∧
    runFrames load ig opt cfg.peakParams cfg.reuseFits
      (List.replicate cfg.peakParams.length none) cfg.framesToFit = .ok out.records ∧
    out.series = aggregate cfg.frameRate out.records ∧
    out.slow = slowFitsOf cfg.evaluationThreshold out.records := by
  unfold run_analysis at h
  cases hv : validateSpecs cfg.peakParams with
  | error e => rw [hv] at h; exact absurd h (by simp)
  | ok u =>
    rw [hv] at h
    cases hr : runFrames load ig opt cfg.peakParams cfg.reuseFits
        (List.replicate cfg.peakParams.length none) cfg.framesToFit with
    | error e => rw [hr] at h; exact absurd h (by simp)
    | ok recs =>
      rw [hr] at h
      cases h
      cases u
      exact ⟨rfl, rfl, rfl, rfl⟩

theorem runFrames_map_frameIndex (load : Loader) (ig : Guesser) (opt : Optimizer)
    (ws : List PeakWindowSpec) (reuse : Bool) :
    ∀ (frames : List Int) (prev : List (Option FitResult)) (recs : List FrameRecord),
      runFrames load ig opt ws reuse prev frames = .ok recs →
      recs.map (fun r => r.frameIndex) = frames := by
  intro frames
  induction frames with
  | nil =>
    intro prev recs h
    simp only [runFrames] at h
    cases h
    rfl
  | cons i rest ih =>
    intro prev recs h
    cases hload : load i with
    | error e => simp [runFrames, hload] at h
    | ok s =>
      cases hrec : runFrames load ig opt ws reuse
          ((fitFrame ig opt ws reuse prev s).map (fun r => some r)) rest with
      | error e => simp [runFrames, hload, hrec] at h
      | ok recs' =>
        simp only [runFrames, hload, hrec] at h
        cases h
        simp only [List.map_cons]
        rw [ih _ _ hrec]

theorem runFrames_error (load : Loader) (ig : Guesser) (opt : Optimizer)
    (ws : List PeakWindowSpec) (reuse : Bool) :
    ∀ (frames : List Int) (prev : List (Option FitResult)) (e : String),
      runFrames load ig opt ws reuse prev frames = .error e →
      ∃ i ∈ frames, load i = .error e := by
  intro frames
  induction frames with
  | nil =>
    intro prev e h
    simp only [runFrames] at h
    cases h
  | cons i rest ih =>
    intro prev e h
    cases hload : load i with
    | error e' =>
      simp only [runFrames, hload] at h
      cases h
      exact ⟨i, List.mem_cons_self _ _, hload⟩
    | ok s =>
      cases hrec : runFrames load ig opt ws reuse
          ((fitFrame ig opt ws reuse prev s).map (fun r => some r)) rest with
      | error e' =>
        simp only [runFrames, hload, hrec] at h
        cases h
        obtain ⟨j, hj, hje⟩ := ih _ _ hrec
        exact ⟨j, List.mem_cons_of_mem _ hj, hje⟩
      | ok recs' =>
        simp [runFrames, hload, hrec] at h

theorem fitFrame_length (ig : Guesser) (opt : Optimizer) (ws : List PeakWindowSpec)
    (reuse : Bool) (prev : List (Option FitResult)) (s : Spectrum)
    (hlen : prev.length = ws.length) :
    (fitFrame ig opt ws reuse prev s).length = ws.length := by
  simp [fitFrame, List.length_zip, hlen]

theorem runFrames_results_length (load : Loader) (ig : Guesser) (opt : Optimizer)
    (ws : List PeakWindowSpec) (reuse : Bool) :
    ∀ (frames : List Int) (prev : List (Option FitResult)) (recs : List FrameRecord),
      runFrames load ig opt ws reuse prev frames = .ok recs →
      prev.length = ws.length →
      ∀ rec ∈ recs, rec.results.length = ws.length := by
  intro frames
  induction frames with
  | nil =>
    intro prev recs h _
    simp only [runFrames] at h
    cases h
    intro rec hrec
    cases hrec
  | cons i rest ih =>
    intro prev recs h hlen
    cases hload : load i with
    | error e => simp [runFrames, hload] at h
    | ok s =>
      cases hrec : runFrames load ig opt ws reuse
          ((fitFrame ig opt ws reuse prev s).map (fun r => some r)) rest with
      | error e => simp [runFrames, hload, hrec] at h
      | ok recs' =>
        simp only [runFrames, hload, hrec] at h
        cases h
        intro rec hmem
        rcases List.mem_cons.mp hmem with heq | hmem'
        · rw [heq]
          exact fitFrame_length ig opt ws reuse prev s hlen
        · exact ih _ _ hrec (by simp [fitFrame_length ig opt ws reuse prev s hlen]) rec hmem'

theorem chainPrev_cons (prev : List (Option FitResult)) (rec0 : FrameRecord)
    (recs' : List FrameRecord) (j : Nat) (hj : j < recs'.length + 1) :
    chainPrev prev (rec0 :: recs') (j + 1) =
      chainPrev (rec0.results.map (fun r => some r)) recs' j := by
  cases j with
  | zero => simp [chainPrev]
  | succ m =>
    have hm : m < recs'.length := by omega
    simp [chainPrev, List.getElem?_eq_getElem hm]

theorem runFrames_get (load : Loader) (ig : Guesser) (opt : Optimizer)
    (ws : List PeakWindowSpec) (reuse : Bool) :
    ∀ (frames : List Int) (prev : List (Option FitResult)) (recs : List FrameRecord),
      runFrames load ig opt ws reuse prev frames = .ok recs →
      ∀ (k : Nat) (hk : k < recs.length),
        ∃ s, load ((recs.get ⟨k, hk⟩).frameIndex) = .ok s ∧
          (recs.get ⟨k, hk⟩).results = fitFrame ig opt ws reuse (chainPrev prev recs k) s := by
  intro frames
  induction frames with
  | nil =>
    intro prev recs h k hk
    simp only [runFrames] at h
    cases h
    exact absurd hk (by simp)
  | cons i rest ih =>
    intro prev recs h k hk
    cases hload : load i with
    | error e => simp [runFrames, hload] at h
    | ok s =>
      cases hrec : runFrames load ig opt ws reuse
          ((fitFrame ig opt ws reuse prev s).map (fun r => some r)) rest with
      | error e => simp [runFrames, hload, hrec] at h
      | ok recs' =>
        simp only [runFrames, hload, hrec] at h
        cases h
        cases k with
        | zero => exact ⟨s, hload, rfl⟩
        | succ j =>
          have hj : j < recs'.length := by
            simpa using Nat.lt_of_succ_lt_succ hk
          obtain ⟨s', hl', hr'⟩ := ih _ _ hrec j hj
          refine ⟨s', ?_, ?_⟩
          · simpa using hl'
          · have hcp := chainPrev_cons prev
              { frameIndex := i, results := fitFrame ig opt ws reuse prev s } recs' j
              (by omega)
            simp only [List.get_cons_succ]
            rw [hr']
            rw [hcp]

theorem fitFrame_reuse_false (ig : Guesser) (opt : Optimizer) (s : Spectrum) :
    ∀ (ws : List PeakWindowSpec) (prev : List (Option FitResult)),
      ws.length ≤ prev.length →
      fitFrame ig opt ws false prev s = ws.map (fun w => fitWindow ig opt s w none) := by
  intro ws
  induction ws with
  | nil => intro prev _; rfl
  | cons w ws' ih =>
    intro prev hlen
    cases prev with
    | nil => simp at hlen
    | cons p prev' =>
      have hstep : fitFrame ig opt (w :: ws') false (p :: prev') s
          = fitWindow ig opt s w none :: fitFrame ig opt ws' false prev' s := rfl
      rw [hstep, List.map_cons, ih prev' (Nat.le_of_succ_le_succ hlen)]

theorem chainPrev_length (load : Loader) (ig : Guesser) (opt : Optimizer)
    (ws : List PeakWindowSpec) (reuse : Bool)
    (frames : List Int) (prev : List (Option FitResult)) (recs : List FrameRecord)
    (h : runFrames load ig opt ws reuse prev frames = .ok recs)
    (hlen : prev.length = ws.length) (k : Nat) :
    (chainPrev prev recs k).length = ws.length := by
  cases k with
  | zero => exact hlen
  | succ j =>
    cases hj : recs[j]? with
    | none => simp [chainPrev, hj, hlen]
    | some rec =>
      have hmem : rec ∈ recs := List.getElem?_mem hj
      have hr := runFrames_results_length load ig opt ws reuse frames prev recs h hlen rec hmem
      simp [chainPrev, hj, hr]

theorem runFrames_append (load : Loader) (ig : Guesser) (opt : Optimizer)
    (ws : List PeakWindowSpec) (reuse : Bool) :
    ∀ (l₁ l₂ : List Int) (prev : List (Option FitResult)) (recs : List FrameRecord),
      runFrames load ig opt ws reuse prev (l₁ ++ l₂) = .ok recs →
      ∃ recs₁ recs₂, recs = recs₁ ++ recs₂ ∧
        runFrames load ig opt ws reuse prev l₁ = .ok recs₁ := by
  intro l₁
  induction l₁ with
  | nil =>
    intro l₂ prev recs h
    exact ⟨[], recs, rfl, rfl⟩
  | cons i rest ih =>
    intro l₂ prev recs h
    rw [List.cons_append] at h
    cases hload : load i with
    | error e => simp [runFrames, hload] at h
    | ok s =>
      cases hrec : runFrames load ig opt ws reuse
          ((fitFrame ig opt ws reuse prev s).map (fun r => some r)) (rest ++ l₂) with
      | error e => simp [runFrames, hload, hrec] at h
      | ok recs' =>
        simp only [runFrames, hload, hrec] at h
        cases h
        obtain ⟨r₁, r₂, hsplit, hrun₁⟩ := ih l₂ _ _ hrec
        refine ⟨{ frameIndex := i, results := fitFrame ig opt ws reuse prev s } :: r₁, r₂, ?_, ?_⟩
        · rw [hsplit]; rfl
        · simp only [runFrames, hload, hrun₁]

theorem entriesOfRecord_mem (rate : ℚ) (rec : FrameRecord) (e : SeriesEntry)
    (h : e ∈ entriesOfRecord rate rec) :
    e.frameIndex = rec.frameIndex ∧ e.time = (rec.frameIndex : ℚ) / rate := by
  unfold entriesOfRecord at h
  obtain ⟨r, _, hr⟩ := List.mem_flatMap.mp h
  by_cases hs : r.success
  · simp only [hs, if_true] at hr
    obtain ⟨v, _, hv⟩ := List.mem_map.mp hr
    rw [← hv]
    exact ⟨rfl, rfl⟩
  · simp [hs] at hr

theorem aggregate_mem (rate : ℚ) (recs : List FrameRecord) (e : SeriesEntry)
    (h : e ∈ aggregate rate recs) :
    ∃ rec ∈ recs, e ∈ entriesOfRecord rate rec := by
  unfold aggregate at h
  exact List.mem_flatMap.mp h

theorem aggregate_append (rate : ℚ) (l₁ l₂ : List FrameRecord) :
    aggregate rate (l₁ ++ l₂) = aggregate rate l₁ ++ aggregate rate l₂ := by
  unfold aggregate
  exact List.flatMap_append l₁ l₂ _

theorem slowFitsOf_append (t : Nat) (l₁ l₂ : List FrameRecord) :
    slowFitsOf t (l₁ ++ l₂) = slowFitsOf t l₁ ++ slowFitsOf t l₂ := by
  unfold slowFitsOf
  exact List.flatMap_append l₁ l₂ _

/-- C2: a warm-start parameter set is passed to the fitter exactly when
`reuse_fits` is true and the previous fit of that window succeeded; when a
warm start is provided and its peak-label set matches the window's labels
it is used directly as the initial parameter vector and `initial_guess` is
not called (the fit does not depend on the guesser); otherwise
`initial_guess` supplies the initial parameters. -/
theorem warm_start_usage :
    (∀ (reuse : Bool) (prev : Option FitResult) (p : PeakShapeParameters),
        warmStart reuse prev = some p ↔
          (reuse = true ∧ ∃ r, prev = some r ∧ r.success = true ∧ p = r.params))
    ∧ (∀ (ig : Guesser) (opt : Optimizer) (s : Spectrum) (w : PeakWindowSpec)
          (p : PeakShapeParameters),
        labelSetMatches p.peakLabels w.peakLabels = true →
          fitWindow ig opt s w (some p) = fitCore opt s w p)
    ∧ (∀ (ig₁ ig₂ : Guesser) (opt : Optimizer) (s : Spectrum) (w : PeakWindowSpec)
          (p : PeakShapeParameters),
        labelSetMatches p.peakLabels w.peakLabels = true →
          fitWindow ig₁ opt s w (some p) = fitWindow ig₂ opt s w (some p))
    ∧ (∀ (ig : Guesser) (opt : Optimizer) (s : Spectrum) (w : PeakWindowSpec)
          (p : PeakShapeParameters),
        labelSetMatches p.peakLabels w.peakLabels = false →
          fitWindow ig opt s w (some p) = fitCore opt s w (ig s w))
    ∧ (∀ (ig : Guesser) (opt : Optimizer) (s : Spectrum) (w : PeakWindowSpec),
        fitWindow ig opt s w none = fitCore opt s w (ig s w))
    ∧ (∀ (ig : Guesser) (opt : Optimizer) (ws : List PeakWindowSpec) (reuse : Bool)
          (prev : List (Option FitResult)) (s : Spectrum),
        fitFrame ig opt ws reuse prev s
          = (ws.zip prev).map (fun wp => fitWindow ig opt s wp.1 (warmStart reuse wp.2))) := by
  refine ⟨?_, ?_, ?_, ?_, ?_, ?_⟩
  · intro reuse prev p
    cases reuse with
    | false => simp [warmStart]
    | true =>
      cases prev with
      | none => simp [warmStart]
      | some r =>
        cases hsucc : r.success with
        | false => simp [warmStart, hsucc]
        | true =>
          constructor
          · intro heq
            simp only [warmStart, hsucc, if_true] at heq
            simp only [Option.some.injEq] at heq
            exact ⟨rfl, r, rfl, hsucc, heq.symm⟩
          · rintro ⟨-, r', hr', hs', hp⟩
            cases hr'
            simp [warmStart, hsucc, hp]
  · intro ig opt s w p h
    simp [fitWindow, chooseInit, h]
  · intro ig₁ ig₂ opt s w p h
    simp [fitWindow, chooseInit, h]
  · intro ig opt s w p h
    simp [fitWindow, chooseInit, h]
  · intro ig opt s w
    simp [fitWindow, chooseInit]
  · intro ig opt ws reuse prev s
    rfl

/-- C2 witness: at a concrete matching warm start, the fit uses it
directly; at concrete inputs the warm start is passed exactly under
reuse-and-success. -/
theorem warm_start_usage_witness :
    fitWindow cig copt [(0, 0)] wA
        (some { peakLabels := ["(A)"], values := [("(A)_center", 2, none)] })
      = fitCore copt [(0, 0)] wA
          { peakLabels := ["(A)"], values := [("(A)_center", 2, none)] } :=
  warm_start_usage.2.1 cig copt [(0, 0)] wA
    { peakLabels := ["(A)"], values := [("(A)_center", 2, none)] } (by decide)

/-- C7: when the optimizer converges but the curvature matrix is singular
or the fit did not move meaningfully from its initial guess, the affected
parameters' standard errors are recorded as absent while the fit itself
still succeeds, and an absent error estimate never makes a fit fail. -/
theorem absent_errors_do_not_fail_fit (opt : Optimizer) (s : Spectrum)
    (w : PeakWindowSpec) (init : PeakShapeParameters) (o : OptOutcome)
    (h : opt s w init = .ok o) :
    (fitCore opt s w init).success = true
    ∧ (fitCore opt s w init).params.values.map (fun v => (v.1, v.2.1)) = o.values
    ∧ ((o.curvatureSingular = true ∨ o.movedFromInitial = false) →
        (fitCore opt s w init).params.values
          = o.values.map (fun nv => (nv.1, nv.2, none))) := by
  unfold fitCore
  rw [h]
  refine ⟨rfl, ?_, ?_⟩
  · simp only [List.map_map]
    exact List.map_id' o.values
  · intro habs
    have hflag : (o.curvatureSingular || !o.movedFromInitial) = true := by
      rcases habs with h1 | h1 <;> simp [h1]
    simp [hflag]

/-- C7 witness: a concrete converged fit with a singular curvature matrix
succeeds with its error estimates recorded absent. -/
theorem absent_errors_do_not_fail_fit_witness :
    (fitCore
        (fun _ _ _ => .ok { values := [("(A)_center", 3)], paramErrors := [("(A)_center", 1)]
                            nEvals := 10, residual := 0
                            curvatureSingular := true, movedFromInitial := true })
        [(0, 0)] wA { peakLabels := ["(A)"], values := [] }).success = true
    ∧ (fitCore
        (fun _ _ _ => .ok { values := [("(A)_center", 3)], paramErrors := [("(A)_center", 1)]
                            nEvals := 10, residual := 0
                            curvatureSingular := true, movedFromInitial := true })
        [(0, 0)] wA { peakLabels := ["(A)"], values := [] }).params.values
      = [("(A)_center", 3, none)] := by
  have h := absent_errors_do_not_fail_fit
    (fun _ _ _ => .ok { values := [("(A)_center", 3)], paramErrors := [("(A)_center", 1)]
                        nEvals := 10, residual := 0
                        curvatureSingular := true, movedFromInitial := true })
    [(0, 0)] wA { peakLabels := ["(A)"], values := [] }
    { values := [("(A)_center", 3)], paramErrors := [("(A)_center", 1)]
      nEvals := 10, residual := 0
      curvatureSingular := true, movedFromInitial := true } rfl
  refine ⟨h.1, ?_⟩
  rw [h.2.2 (Or.inl rfl)]
  rfl

/-- C4: a configuration in which some window's bound-hint count differs
from its peak-label count, or in which a peak label occurs in more than
one place, raises ParameterSpecMismatch at configuration time; the run's
outcome is then the configuration error, for every loader, guesser and
optimizer, so no frame is loaded or fitted. -/
theorem config_mismatch_fails_fast :
    (∀ ws : List PeakWindowSpec,
        (∃ e, validateSpecs ws = .error e) ↔ (BadHints ws ∨ DupLabels ws))
    ∧ (∀ (cfg : Config) (e : ConfigError) (load : Loader) (ig : Guesser) (opt : Optimizer),
        validateSpecs cfg.peakParams = .error e →
        run_analysis load ig opt cfg = .error (.paramSpecMismatch e))
    ∧ (∀ (cfg : Config) (load₁ load₂ : Loader) (ig₁ ig₂ : Guesser)
          (opt₁ opt₂ : Optimizer) (e : ConfigError),
        validateSpecs cfg.peakParams = .error e →
        run_analysis load₁ ig₁ opt₁ cfg = run_analysis load₂ ig₂ opt₂ cfg) := by
  have hrun : ∀ (cfg : Config) (e : ConfigError) (load : Loader) (ig : Guesser) (opt : Optimizer),
      validateSpecs cfg.peakParams = .error e →
      run_analysis load ig opt cfg = .error (.paramSpecMismatch e) := by
    intro cfg e load ig opt h
    unfold run_analysis
    rw [h]
  refine ⟨?_, hrun, ?_⟩
  · intro ws
    constructor
    · rintro ⟨e, he⟩
      unfold validateSpecs at he
      by_cases h1 : ws.all hintOk = true
      · rw [if_pos h1] at he
        by_cases h2 : ((ws.map (fun w => w.peakLabels)).flatten).Nodup
        · rw [if_pos h2] at he
          cases he
        · exact Or.inr h2
      · left
        have h1' : ¬ ∀ w ∈ ws, hintOk w = true := fun hall => h1 (List.all_eq_true.mpr hall)
        push_neg at h1'
        obtain ⟨w, hw, hbad⟩ := h1'
        cases hh : w.boundHints with
        | none =>
          exfalso
          apply hbad
          unfold hintOk
          rw [hh]
        | some hs =>
          refine ⟨w, hw, hs, hh, ?_⟩
          intro hlen
          apply hbad
          unfold hintOk
          rw [hh]
          simpa using hlen
    · intro h
      rcases h with hb | hd
      · obtain ⟨w, hw, hs, hsome, hne⟩ := hb
        unfold validateSpecs
        have h1 : ws.all hintOk ≠ true := by
          intro hall
          have := List.all_eq_true.mp hall w hw
          unfold hintOk at this
          rw [hsome] at this
          exact hne (by simpa using this)
        rw [if_neg h1]
        exact ⟨_, rfl⟩
      · unfold validateSpecs
        by_cases h1 : ws.all hintOk = true
        · rw [if_pos h1, if_neg hd]
          exact ⟨_, rfl⟩
        · rw [if_neg h1]
          exact ⟨_, rfl⟩
  · intro cfg load₁ load₂ ig₁ ig₂ opt₁ opt₂ e h
    rw [hrun cfg e load₁ ig₁ opt₁ h, hrun cfg e load₂ ig₂ opt₂ h]

/-- C4 witness: a window with 2 peak labels and 3 bound hints makes
`run_analysis` fail with ParameterSpecMismatch before any frame is
processed. -/
theorem config_mismatch_fails_fast_witness :
    run_analysis cload cig copt cfgBad
      = .error (.paramSpecMismatch .hintCountMismatch) :=
  config_mismatch_fails_fast.2.1 cfgBad .hintCountMismatch cload cig copt rfl

/-- C1: frames are processed strictly in the literal order of the given
frame-index sequence (even non-contiguous, non-monotonic ones), and the
warm-start state for processing step k+1 is the set of results of
processing step k - the immediately previously processed frame - not of
the frame with the nearest or preceding frame number. -/
theorem run_ordering_and_warm_start (load : Loader) (ig : Guesser) (opt : Optimizer)
    (cfg : Config) (out : RunOutput)
    (h : run_analysis load ig opt cfg = .ok out) :
    out.records.map (fun rec => rec.frameIndex) = cfg.framesToFit
    ∧ (∀ h0 : 0 < out.records.length,
        ∃ s, load ((out.records.get ⟨0, h0⟩).frameIndex) = .ok s
          ∧ (out.records.get ⟨0, h0⟩).results
              = fitFrame ig opt cfg.peakParams cfg.reuseFits
                  (List.replicate cfg.peakParams.length none) s)
    ∧ (∀ (k : Nat) (hk : k + 1 < out.records.length),
        ∃ s, load ((out.records.get ⟨k + 1, hk⟩).frameIndex) = .ok s
          ∧ (out.records.get ⟨k + 1, hk⟩).results
              = fitFrame ig opt cfg.peakParams cfg.reuseFits
                  (((out.records.get ⟨k, Nat.lt_of_succ_lt hk⟩).results).map
                    (fun r => some r)) s) := by
  obtain ⟨hv, hrf, hser, hslow⟩ := run_analysis_ok h
  refine ⟨runFrames_map_frameIndex load ig opt cfg.peakParams cfg.reuseFits
    cfg.framesToFit _ _ hrf, ?_, ?_⟩
  · intro h0
    obtain ⟨s, hl, hr⟩ := runFrames_get load ig opt cfg.peakParams cfg.reuseFits
      cfg.framesToFit _ _ hrf 0 h0
    exact ⟨s, hl, by simpa [chainPrev] using hr⟩
  · intro k hk
    obtain ⟨s, hl, hr⟩ := runFrames_get load ig opt cfg.peakParams cfg.reuseFits
      cfg.framesToFit _ _ hrf (k + 1) hk
    refine ⟨s, hl, ?_⟩
    rw [hr]
    have hk' : k < out.records.length := Nat.lt_of_succ_lt hk
    have hcp : chainPrev (List.replicate cfg.peakParams.length none) out.records (k + 1)
        = ((out.records.get ⟨k, hk'⟩).results).map (fun r => some r) := by
      simp [chainPrev, List.getElem?_eq_getElem hk', List.get_eq_getElem]
    rw [hcp]

/-- C1 witness: on the concrete run over the non-monotonic frame sequence
[5, 1, 3], the records follow that literal order and each step's fits are
seeded from the immediately previously processed step. -/
theorem run_ordering_and_warm_start_witness :
    coutOrder.records.map (fun rec => rec.frameIndex) = ccfgOrder.framesToFit
    ∧ (∀ h0 : 0 < coutOrder.records.length,
        ∃ s, cload ((coutOrder.records.get ⟨0, h0⟩).frameIndex) = .ok s
          ∧ (coutOrder.records.get ⟨0, h0⟩).results
              = fitFrame cig copt ccfgOrder.peakParams ccfgOrder.reuseFits
                  (List.replicate ccfgOrder.peakParams.length none) s)
    ∧ (∀ (k : Nat) (hk : k + 1 < coutOrder.records.length),
        ∃ s, cload ((coutOrder.records.get ⟨k + 1, hk⟩).frameIndex) = .ok s
          ∧ (coutOrder.records.get ⟨k + 1, hk⟩).results
              = fitFrame cig copt ccfgOrder.peakParams ccfgOrder.reuseFits
                  (((coutOrder.records.get ⟨k, Nat.lt_of_succ_lt hk⟩).results).map
                    (fun r => some r)) s) :=
  run_ordering_and_warm_start cload cig copt ccfgOrder coutOrder rfl

/-- C3: a fit raising a numerical evaluation error is caught - the
window's FitResult is marked failed and the run continues: with a valid
configuration and a loader that succeeds on every requested frame, the run
succeeds and processes every frame and every window, whatever the
optimizer does; and a run halts only with a ParameterSpecMismatch
configuration error or a spectrum-load error. -/
theorem fit_failure_caught_run_continues (load : Loader) (ig : Guesser)
    (opt : Optimizer) (cfg : Config) :
    (validateSpecs cfg.peakParams = .ok () →
      (∀ i ∈ cfg.framesToFit, ∃ s, load i = .ok s) →
      ∃ out, run_analysis load ig opt cfg = .ok out
        ∧ out.records.map (fun rec => rec.frameIndex) = cfg.framesToFit
        ∧ ∀ rec ∈ out.records, rec.results.length = cfg.peakParams.length)
    ∧ (∀ (s : Spectrum) (w : PeakWindowSpec) (warm : Option PeakShapeParameters)
          (msg : String),
        opt s w (chooseInit ig s w warm) = .error msg →
        (fitWindow ig opt s w warm).success = false)
    ∧ (∀ msg, run_analysis load ig opt cfg = .error (.spectrumLoadError msg) →
        ∃ i ∈ cfg.framesToFit, load i = .error msg)
    ∧ (∀ e, run_analysis load ig opt cfg = .error (.paramSpecMismatch e) →
        validateSpecs cfg.peakParams = .error e) := by
  refine ⟨?_, ?_, ?_, ?_⟩
  · intro hv hload
    cases hr : runFrames load ig opt cfg.peakParams cfg.reuseFits
        (List.replicate cfg.peakParams.length none) cfg.framesToFit with
    | error e =>
      exfalso
      obtain ⟨i, hi, hie⟩ := runFrames_error load ig opt cfg.peakParams cfg.reuseFits
        cfg.framesToFit _ _ hr
      obtain ⟨s, hs⟩ := hload i hi
      rw [hs] at hie
      cases hie
    | ok recs =>
      refine ⟨{ records := recs, series := aggregate cfg.frameRate recs
                slow := slowFitsOf cfg.evaluationThreshold recs }, ?_, ?_, ?_⟩
      · unfold run_analysis
        rw [hv, hr]
      · exact runFrames_map_frameIndex load ig opt cfg.peakParams cfg.reuseFits
          cfg.framesToFit _ _ hr
      · exact runFrames_results_length load ig opt cfg.peakParams cfg.reuseFits
          cfg.framesToFit _ _ hr (by simp)
  · intro s w warm msg hmsg
    unfold fitWindow fitCore
    rw [hmsg]
  · intro msg h
    unfold run_analysis at h
    cases hv : validateSpecs cfg.peakParams with
    | error e => rw [hv] at h; cases h
    | ok u =>
      rw [hv] at h
      cases hr : runFrames load ig opt cfg.peakParams cfg.reuseFits
          (List.replicate cfg.peakParams.length none) cfg.framesToFit with
      | error e =>
        rw [hr] at h
        cases h
        exact runFrames_error load ig opt cfg.peakParams cfg.reuseFits
          cfg.framesToFit _ _ hr
      | ok recs => rw [hr] at h; cases h
  · intro e h
    unfold run_analysis at h
    cases hv : validateSpecs cfg.peakParams with
    | error e' =>
      rw [hv] at h
      cases h
      rfl
    | ok u =>
      rw [hv] at h
      cases hr : runFrames load ig opt cfg.peakParams cfg.reuseFits
          (List.replicate cfg.peakParams.length none) cfg.framesToFit with
      | error e' => rw [hr] at h; cases h
      | ok recs => rw [hr] at h; cases h

/-- C3 witness: with an optimizer that always raises a numerical
evaluation error, the concrete one-frame run still succeeds. -/
theorem fit_failure_caught_run_continues_witness :
    ∃ out, run_analysis cload cig coptFail cfgOne = .ok out
      ∧ out.records.map (fun rec => rec.frameIndex) = cfgOne.framesToFit
      ∧ ∀ rec ∈ out.records, rec.results.length = cfgOne.peakParams.length :=
  (fit_failure_caught_run_continues cload cig coptFail cfgOne).1 rfl
    (fun _ _ => ⟨[(0, 0), (1, 1)], rfl⟩)

/-- C6: every entry stored in the time series of a successful run carries
time equal to its frame index divided by the configured frame rate, and
its frame index is one of the processed frames. -/
theorem series_time_is_frame_index_over_rate (load : Loader) (ig : Guesser)
    (opt : Optimizer) (cfg : Config) (out : RunOutput)
    (h : run_analysis load ig opt cfg = .ok out) :
    ∀ e ∈ out.series,
      e.time = (e.frameIndex : ℚ) / cfg.frameRate ∧ e.frameIndex ∈ cfg.framesToFit := by
  obtain ⟨hv, hrf, hser, hslow⟩ := run_analysis_ok h
  intro e he
  rw [hser] at he
  obtain ⟨rec, hrec, hmem⟩ := aggregate_mem cfg.frameRate out.records e he
  obtain ⟨hidx, htime⟩ := entriesOfRecord_mem cfg.frameRate rec e hmem
  constructor
  · rw [htime, hidx]
  · rw [hidx]
    have hmapeq := runFrames_map_frameIndex load ig opt cfg.peakParams cfg.reuseFits
      cfg.framesToFit _ _ hrf
    rw [← hmapeq]
    exact List.mem_map.mpr ⟨rec, hrec, rfl⟩

/-- C6 witness: on the concrete [5, 1, 3] run at 10 Hz, the first series
entry's time is its frame index divided by 10 and its frame index is one
of the processed frames. -/
theorem series_time_is_frame_index_over_rate_witness :
    (coutOrder.series.headD
        { label := "", paramName := "", frameIndex := 0, time := 0, value := 0, err := none }).time
      = ((coutOrder.series.headD
          { label := "", paramName := "", frameIndex := 0, time := 0, value := 0
            err := none }).frameIndex : ℚ) / ccfgOrder.frameRate
    ∧ (coutOrder.series.headD
        { label := "", paramName := "", frameIndex := 0, time := 0, value := 0
          err := none }).frameIndex ∈ ccfgOrder.framesToFit := by
  have hne : coutOrder.series ≠ [] := by decide
  have hmem : (coutOrder.series.headD
      { label := "", paramName := "", frameIndex := 0, time := 0, value := 0
        err := none }) ∈ coutOrder.series := by
    cases hl : coutOrder.series with
    | nil => exact absurd hl hne
    | cons a t =>
      exact List.mem_cons_self a t
  exact series_time_is_frame_index_over_rate cload cig copt ccfgOrder coutOrder rfl _ hmem

/-- C10: the pipeline is deterministic - with no warm start
(`reuse_fits` false) the fit of a frame does not depend on any previously
accumulated state, so fitting the same spectrum against the same windows
twice (at any two processing steps with the same frame index) yields
identical fitted results. -/
theorem refit_deterministic (load : Loader) (ig : Guesser) (opt : Optimizer)
    (cfg : Config) (out : RunOutput)
    (h : run_analysis load ig opt cfg = .ok out)
    (hreuse : cfg.reuseFits = false) :
    ∀ (k₁ k₂ : Nat) (h₁ : k₁ < out.records.length) (h₂ : k₂ < out.records.length),
      (out.records.get ⟨k₁, h₁⟩).frameIndex = (out.records.get ⟨k₂, h₂⟩).frameIndex →
      (out.records.get ⟨k₁, h₁⟩).results = (out.records.get ⟨k₂, h₂⟩).results := by
  obtain ⟨hv, hrf, hser, hslow⟩ := run_analysis_ok h
  intro k₁ k₂ h₁ h₂ hidx
  obtain ⟨s₁, hl₁, hr₁⟩ := runFrames_get load ig opt cfg.peakParams cfg.reuseFits
    cfg.framesToFit _ _ hrf k₁ h₁
  obtain ⟨s₂, hl₂, hr₂⟩ := runFrames_get load ig opt cfg.peakParams cfg.reuseFits
    cfg.framesToFit _ _ hrf k₂ h₂
  have hlen₁ : cfg.peakParams.length ≤
      (chainPrev (List.replicate cfg.peakParams.length none) out.records k₁).length :=
    le_of_eq (chainPrev_length load ig opt cfg.peakParams cfg.reuseFits
      cfg.framesToFit _ _ hrf (by simp) k₁).symm
  have hlen₂ : cfg.peakParams.length ≤
      (chainPrev (List.replicate cfg.peakParams.length none) out.records k₂).length :=
    le_of_eq (chainPrev_length load ig opt cfg.peakParams cfg.reuseFits
      cfg.framesToFit _ _ hrf (by simp) k₂).symm
  rw [hreuse] at hr₁ hr₂
  rw [fitFrame_reuse_false ig opt s₁ cfg.peakParams _ hlen₁] at hr₁
  rw [fitFrame_reuse_false ig opt s₂ cfg.peakParams _ hlen₂] at hr₂
  have hs : s₁ = s₂ := by
    rw [hidx] at hl₁
    rw [hl₁] at hl₂
    exact Except.ok.inj hl₂
  rw [hr₁, hr₂, hs]

/-- C10 witness: the concrete run that fits frame 1 twice with reuse
disabled produces identical results at both processing steps. -/
theorem refit_deterministic_witness :
    ∃ (h₁ : 0 < coutRepeat.records.length) (h₂ : 1 < coutRepeat.records.length),
      (coutRepeat.records.get ⟨0, h₁⟩).results = (coutRepeat.records.get ⟨1, h₂⟩).results :=
  ⟨by decide, by decide,
    refit_deterministic cload cig copt cRepeat coutRepeat rfl rfl 0 1
      (by decide) (by decide) (by decide)⟩

theorem aggregate_sorted (rate : ℚ) :
    ∀ recs : List FrameRecord,
      (recs.map (fun r => r.frameIndex)).Pairwise (fun a b => a ≤ b) →
      ((aggregate rate recs).map (fun e => e.frameIndex)).Pairwise (fun a b => a ≤ b) := by
  intro recs
  induction recs with
  | nil =>
    intro _
    simp [aggregate]
  | cons rec rest ih =>
    intro h
    rw [List.map_cons, List.pairwise_cons] at h
    obtain ⟨hhead, htail⟩ := h
    have hagg : aggregate rate (rec :: rest)
        = entriesOfRecord rate rec ++ aggregate rate rest := rfl
    rw [hagg, List.map_append, List.pairwise_append]
    refine ⟨?_, ih htail, ?_⟩
    · apply List.pairwise_of_forall_mem_list
      intro a ha b hb
      obtain ⟨ea, hea, haeq⟩ := List.mem_map.mp ha
      obtain ⟨eb, heb, hbeq⟩ := List.mem_map.mp hb
      rw [← haeq, ← hbeq,
        (entriesOfRecord_mem rate rec ea hea).1,
        (entriesOfRecord_mem rate rec eb heb).1]
    · intro a ha b hb
      obtain ⟨ea, hea, haeq⟩ := List.mem_map.mp ha
      obtain ⟨eb, heb, hbeq⟩ := List.mem_map.mp hb
      obtain ⟨rec', hrec', hmem'⟩ := aggregate_mem rate rest eb heb
      rw [← haeq, ← hbeq, (entriesOfRecord_mem rate rec ea hea).1,
        (entriesOfRecord_mem rate rec' eb hmem').1]
      exact hhead rec'.frameIndex (List.mem_map.mpr ⟨rec', hrec', rfl⟩)

/-- C8 counterexample: on the concrete run over the non-monotonic frame
sequence [5, 1], the time series is built in processing order, so its
entries are not ordered by increasing frame index. -/
theorem series_frame_order_counterexample :
    run_analysis cload cig copt c8cfg = .ok c8out
    ∧ c8out.series.map (fun e => e.frameIndex) = [5, 1]
    ∧ ¬ (c8out.series.map (fun e => e.frameIndex)).Pairwise (fun a b => a ≤ b) := by
  have hmap : c8out.series.map (fun e => e.frameIndex) = [5, 1] := by decide
  refine ⟨rfl, hmap, ?_⟩
  rw [hmap]
  intro hs
  rw [List.pairwise_cons] at hs
  have := hs.1 1 (by simp)
  omega

/-- C8 amended: the time series is append-only and grows monotonically -
running the orchestrator on an extended frame sequence only appends
records, series entries and diagnostics entries, never removing or
overwriting any, even for non-monotonic frame sequences; the entries are
ordered by processing order, and are ordered by increasing frame index
whenever the frame sequence itself is monotonically increasing. -/
theorem series_append_only_processing_order (load : Loader) (ig : Guesser)
    (opt : Optimizer) (rate : ℚ) (ws : List PeakWindowSpec) (reuse : Bool)
    (t : Nat) (l extra : List Int) (out₁ out₂ : RunOutput)
    (h₁ : run_analysis load ig opt
      { frameRate := rate, framesToFit := l, peakParams := ws
        reuseFits := reuse, evaluationThreshold := t } = .ok out₁)
    (h₂ : run_analysis load ig opt
      { frameRate := rate, framesToFit := l ++ extra, peakParams := ws
        reuseFits := reuse, evaluationThreshold := t } = .ok out₂) :
    (∃ recs' entries' slows',
        out₂.records = out₁.records ++ recs'
        ∧ out₂.series = out₁.series ++ entries'
        ∧ out₂.slow = out₁.slow ++ slows')
    ∧ (((l ++ extra).Pairwise (fun a b => a ≤ b)) →
        (out₂.series.map (fun e => e.frameIndex)).Pairwise (fun a b => a ≤ b)) := by
  obtain ⟨hv₁, hrf₁, hser₁, hslow₁⟩ := run_analysis_ok h₁
  obtain ⟨hv₂, hrf₂, hser₂, hslow₂⟩ := run_analysis_ok h₂
  constructor
  · obtain ⟨recs₁, recs₂, hsplit, hrun₁⟩ := runFrames_append load ig opt ws reuse
      l extra _ _ hrf₂
    have hre : recs₁ = out₁.records := by
      rw [hrf₁] at hrun₁
      exact (Except.ok.inj hrun₁).symm
    refine ⟨recs₂, aggregate rate recs₂, slowFitsOf t recs₂, ?_, ?_, ?_⟩
    · rw [hsplit, hre]
    · rw [hser₂, hser₁, hsplit, hre, aggregate_append]
    · rw [hslow₂, hslow₁, hsplit, hre, slowFitsOf_append]
  · intro hsorted
    rw [hser₂]
    apply aggregate_sorted
    have hmap := runFrames_map_frameIndex load ig opt ws reuse (l ++ extra) _ _ hrf₂
    rw [hmap]
    exact hsorted

/-- C8 amended witness: extending the concrete one-frame run to [1, 2]
appends to records, series and diagnostics, and the increasing sequence
produces a series ordered by increasing frame index. -/
theorem series_append_only_processing_order_witness :
    (∃ recs' entries' slows',
        coutTwo.records = coutOne.records ++ recs'
        ∧ coutTwo.series = coutOne.series ++ entries'
        ∧ coutTwo.slow = coutOne.slow ++ slows')
    ∧ (((([1] : List Int) ++ [2]).Pairwise (fun a b => a ≤ b)) →
        (coutTwo.series.map (fun e => e.frameIndex)).Pairwise (fun a b => a ≤ b)) :=
  series_append_only_processing_order cload cig copt 10 [wA] false 500
    [1] [2] coutOne coutTwo rfl rfl

/-- C9: `get_series` returns the ordered (time, value, error-or-absent)
sequence for a (peak-group label, parameter name) key that was fitted, and
fails with a NotFound kind exactly when no entry with that label and
parameter was ever recorded. -/
theorem get_series_found_or_notFound (ts : List SeriesEntry) (label pname : String) :
    (get_series ts label pname = .error .notFound ↔
      ∀ e ∈ ts, ¬ (e.label = label ∧ e.paramName = pname))
    ∧ (∀ l, get_series ts label pname = .ok l →
        l = (ts.filter (fun e => e.label == label && e.paramName == pname)).map
              (fun e => (e.time, e.value, e.err))
        ∧ l ≠ [])
    ∧ ((∃ e ∈ ts, e.label = label ∧ e.paramName = pname) →
        get_series ts label pname
          = .ok ((ts.filter (fun e => e.label == label && e.paramName == pname)).map
              (fun e => (e.time, e.value, e.err)))) := by
  have hchar : (ts.filter (fun e => e.label == label && e.paramName == pname)).isEmpty = true ↔
      ∀ e ∈ ts, ¬ (e.label = label ∧ e.paramName = pname) := by
    rw [List.isEmpty_iff, List.filter_eq_nil_iff]
    constructor
    · intro h e he hpred
      exact h e he (by simp [hpred.1, hpred.2])
    · intro h e he hb
      simp only [Bool.and_eq_true, beq_iff_eq] at hb
      exact h e he hb
  refine ⟨?_, ?_, ?_⟩
  · constructor
    · intro hg
      rw [← hchar]
      by_cases h : (ts.filter (fun e => e.label == label && e.paramName == pname)).isEmpty = true
      · exact h
      · unfold get_series at hg
        rw [if_neg h] at hg
        cases hg
    · intro hall
      unfold get_series
      rw [if_pos (hchar.mpr hall)]
  · intro l hg
    by_cases h : (ts.filter (fun e => e.label == label && e.paramName == pname)).isEmpty = true
    · unfold get_series at hg
      rw [if_pos h] at hg
      cases hg
    · unfold get_series at hg
      rw [if_neg h] at hg
      refine ⟨(Except.ok.inj hg).symm, ?_⟩
      rw [← (Except.ok.inj hg)]
      intro hnil
      apply h
      rw [List.isEmpty_iff]
      exact List.map_eq_nil_iff.mp hnil
  · intro hex
    have h : ¬ (ts.filter (fun e => e.label == label && e.paramName == pname)).isEmpty = true := by
      rw [hchar]
      push_neg
      obtain ⟨e, he, hpred⟩ := hex
      exact ⟨e, he, hpred⟩
    unfold get_series
    rw [if_neg h]

/-- C9 witness: on the concrete one-frame run, the fitted key is returned
and an unknown key is NotFound. -/
theorem get_series_found_or_notFound_witness :
    get_series coutOne.series "(A)" "(A)_center"
      = .ok ((coutOne.series.filter
          (fun e => e.label == "(A)" && e.paramName == "(A)_center")).map
            (fun e => (e.time, e.value, e.err)))
    ∧ get_series coutOne.series "(B)" "(B)_center" = .error .notFound := by
  constructor
  · apply (get_series_found_or_notFound coutOne.series "(A)" "(A)_center").2.2
    have hm : coutOne.series.map (fun e => (e.label, e.paramName))
        = [("(A)", "(A)_center")] := by decide
    have hmem : ("(A)", "(A)_center") ∈ coutOne.series.map (fun e => (e.label, e.paramName)) := by
      rw [hm]
      exact List.mem_singleton.mpr rfl
    obtain ⟨e, he, heq⟩ := List.mem_map.mp hmem
    exact ⟨e, he, congrArg Prod.fst heq, congrArg Prod.snd heq⟩
  · exact (get_series_found_or_notFound coutOne.series "(B)" "(B)_center").1.mpr
      (by decide)

/-- C5: the diagnostics report records exactly the (window, frame) fits
whose evaluation count exceeded the evaluation threshold (500 by
default); `summary()` lists exactly the peak-group labels with at least
one slow fit, with their counts, ascending by label; `detailed()`
additionally lists, per slow fit, its frame index and evaluation count. -/
theorem diagnostics_summary_detailed (t : Nat) (recs : List FrameRecord) :
    (∀ x, x ∈ slowFitsOf t recs ↔
      ∃ rec ∈ recs, ∃ r ∈ rec.results, t < r.nEvaluations
        ∧ x = { label := groupLabel r.window, frameIndex := rec.frameIndex
                nEvals := r.nEvaluations })
    ∧ ((summary (slowFitsOf t recs)).map Prod.fst).Pairwise (fun a b => a ≤ b)
    ∧ (∀ l, l ∈ (summary (slowFitsOf t recs)).map Prod.fst ↔
        ∃ e ∈ slowFitsOf t recs, e.label = l)
    ∧ (∀ l c, (l, c) ∈ summary (slowFitsOf t recs) →
        c = (slowFitsOf t recs).countP (fun e => e.label == l) ∧ 1 ≤ c)
    ∧ (∀ l c d, (l, c, d) ∈ detailed (slowFitsOf t recs) →
        (l, c) ∈ summary (slowFitsOf t recs)
        ∧ d = ((slowFitsOf t recs).filter (fun e => e.label == l)).map
            (fun e => (e.frameIndex, e.nEvals)))
    ∧ (∀ (r : ℚ) (fs : List Int) (ps : List PeakWindowSpec),
        ({ frameRate := r, framesToFit := fs, peakParams := ps } : Config).evaluationThreshold
          = 500
        ∧ ({ frameRate := r, framesToFit := fs, peakParams := ps } : Config).reuseFits
          = false) := by
  have hlabels : ∀ l, l ∈ sortedLabels (slowFitsOf t recs) ↔
      ∃ e ∈ slowFitsOf t recs, e.label = l := by
    intro l
    unfold sortedLabels
    rw [List.mem_insertionSort, List.mem_dedup]
    constructor
    · intro h
      obtain ⟨e, he, heq⟩ := List.mem_map.mp h
      exact ⟨e, he, heq⟩
    · intro h
      obtain ⟨e, he, heq⟩ := h
      exact List.mem_map.mpr ⟨e, he, heq⟩
  have hsummap : (summary (slowFitsOf t recs)).map Prod.fst
      = sortedLabels (slowFitsOf t recs) := by
    unfold summary
    rw [List.map_map]
    exact List.map_id' _
  refine ⟨?_, ?_, ?_, ?_, ?_, ?_⟩
  · intro x
    unfold slowFitsOf
    rw [List.mem_flatMap]
    constructor
    · rintro ⟨rec, hrec, hx⟩
      rw [List.mem_filterMap] at hx
      obtain ⟨r, hr, hfx⟩ := hx
      by_cases hth : t < r.nEvaluations
      · rw [if_pos hth] at hfx
        exact ⟨rec, hrec, r, hr, hth, (Option.some.inj hfx).symm⟩
      · rw [if_neg hth] at hfx
        cases hfx
    · rintro ⟨rec, hrec, r, hr, hth, hx⟩
      refine ⟨rec, hrec, ?_⟩
      rw [List.mem_filterMap]
      exact ⟨r, hr, by rw [if_pos hth, hx]⟩
  · rw [hsummap]
    exact List.sorted_insertionSort (fun a b => a ≤ b) _
  · intro l
    rw [hsummap]
    exact hlabels l
  · intro l c hmem
    unfold summary at hmem
    obtain ⟨l', hl', heq⟩ := List.mem_map.mp hmem
    have h1 : l' = l := congrArg Prod.fst heq
    have h2 : (slowFitsOf t recs).countP (fun e => e.label == l') = c :=
      congrArg Prod.snd heq
    rw [h1] at h2 hl'
    refine ⟨h2.symm, ?_⟩
    rw [← h2]
    have hex := (hlabels l).mp hl'
    obtain ⟨e, he, hle⟩ := hex
    have : 0 < (slowFitsOf t recs).countP (fun e => e.label == l) :=
      List.countP_pos_iff.mpr ⟨e, he, by simp [hle]⟩
    omega
  · intro l c d hmem
    unfold detailed at hmem
    obtain ⟨l', hl', heq⟩ := List.mem_map.mp hmem
    have h1 : l' = l := congrArg Prod.fst heq
    have h2 : (slowFitsOf t recs).countP (fun e => e.label == l') = c :=
      congrArg (fun p => p.2.1) heq
    have h3 : ((slowFitsOf t recs).filter (fun e => e.label == l')).map
        (fun e => (e.frameIndex, e.nEvals)) = d := congrArg (fun p => p.2.2) heq
    rw [h1] at h2 h3 hl'
    constructor
    · unfold summary
      exact List.mem_map.mpr ⟨l, hl', by rw [h2]⟩
    · exact h3.symm
  · intro r fs ps
    exact ⟨rfl, rfl⟩

/-- C5 witness: on the concrete one-frame run (600 evaluations against the
default threshold 500), the label "(A)" appears in the summary with a
positive count. -/
theorem diagnostics_summary_detailed_witness :
    ("(A)" ∈ (summary (slowFitsOf 500 coutOne.records)).map Prod.fst)
    ∧ ((summary (slowFitsOf 500 coutOne.records)).map Prod.fst).Pairwise
        (fun a b => a ≤ b) := by
  have h := diagnostics_summary_detailed 500 coutOne.records
  constructor
  · apply (h.2.2.1 "(A)").mpr
    have hm : (slowFitsOf 500 coutOne.records).map (fun e => e.label) = ["(A)"] := by decide
    have hmem : "(A)" ∈ (slowFitsOf 500 coutOne.records).map (fun e => e.label) := by
      rw [hm]
      exact List.mem_singleton.mpr rfl
    obtain ⟨e, he, heq⟩ := List.mem_map.mp hmem
    exact ⟨e, he, heq⟩
  · exact h.2.1
